import Mathlib

/-!
Verification of the azguard cost core: shallow embedding of the cost
record store, summary aggregator, trend & forecast engine, alert
evaluator and free-tier classifier, with Go float64 modelled as ℚ and
Go strings as String.
-/

namespace AzGuard

/-- storage.CostRecord (sqlite.go): one billing line item. -/
structure CostRecord where
  subscriptionId : String
  resourceGroup : String
  serviceName : String
  cost : ℚ
  currency : String
  date : String
deriving DecidableEq, Repr

/-- storage.MonthlyCost (sqlite.go): a per-(month, currency) bucket. -/
structure MonthlyCost where
  month : String
  totalCost : ℚ
  currency : String
deriving DecidableEq, Repr

/-- cost.Forecast (models.go). -/
structure Forecast where
  nextMonth : ℚ
  confidence : String
deriving DecidableEq, Repr

/-- cost.TrendAnalysis (shell.go). -/
structure TrendAnalysis where
  currentMonth : ℚ
  previousMonth : ℚ
  changePercent : ℚ
  trend : String
  averageMonthly : ℚ
  projection : ℚ
deriving DecidableEq, Repr

/-- storage.Alert (sqlite.go). -/
structure Alert where
  name : String
  threshold : ℚ
  subscriptionId : String
  enabled : Bool
deriving DecidableEq, Repr

/-- cost.ServiceLimit (models.go, free-tier config). -/
structure ServiceLimit where
  description : String
  limit : ℚ
  unit : String
  duration : String
  warningThreshold : ℚ
deriving DecidableEq, Repr

/-- cost.ServiceUsage (models.go). -/
structure ServiceUsage where
  serviceName : String
  used : ℚ
  limit : ℚ
  unit : String
  status : String
  percentUsed : ℚ
deriving DecidableEq, Repr

/-- Go math.Round: round to nearest integer, halves away from zero. -/
def goRound (q : ℚ) : ℤ :=
  if 0 ≤ q then ⌊q + 1/2⌋ else -⌊-q + 1/2⌋

/-- Round to two decimal places, as `math.Round(x*100)/100` does. -/
def round2 (q : ℚ) : ℚ :=
  (goRound (q * 100) : ℚ) / 100

/-- One iteration of the accumulation loop in calculateProjection
(shell.go): fold state is (sumX, sumY, sumXY, sumX2), input is the
(index, month) pair of the range loop. -/
def projStep (acc : ℚ × ℚ × ℚ × ℚ) (p : ℕ × MonthlyCost) : ℚ × ℚ × ℚ × ℚ :=
  (acc.1 + (p.1 : ℚ),
   acc.2.1 + p.2.totalCost,
   acc.2.2.1 + (p.1 : ℚ) * p.2.totalCost,
   acc.2.2.2 + (p.1 : ℚ) * (p.1 : ℚ))

/-- Service.calculateProjection (shell.go): least-squares linear fit over
the stored retrieval order, evaluated at the next index n; fewer than 2
points yields 0. -/
def calculateProjection (monthlyCosts : List MonthlyCost) : ℚ :=
  if monthlyCosts.length < 2 then 0
  else
    let n : ℚ := (monthlyCosts.length : ℚ)
    let s := monthlyCosts.enum.foldl projStep (0, 0, 0, 0)
    let sumX := s.1
    let sumY := s.2.1
    let sumXY := s.2.2.1
    let sumX2 := s.2.2.2
    let slope := (n * sumXY - sumX * sumY) / (n * sumX2 - sumX * sumX)
    let intercept := (sumY - slope * sumX) / n
    slope * n + intercept

/-- The closed-form ordinary-least-squares projection exactly as the spec
writes it: x = 0..n−1 in stored order, y the month's total,
slope = (n·Σxy − Σx·Σy)/(n·Σx² − (Σx)²), intercept = (Σy − slope·Σx)/n,
projection = slope·n + intercept. Written from the spec's words, to be
compared with calculateProjection. -/
def specOLSProjection (ys : List ℚ) : ℚ :=
  let n : ℚ := (ys.length : ℚ)
  let xs : List ℚ := (List.range ys.length).map (fun i : ℕ => (i : ℚ))
  let sumX := xs.sum
  let sumY := ys.sum
  let sumXY := ((xs.zip ys).map (fun p => p.1 * p.2)).sum
  let sumX2 := (xs.map (fun x => x * x)).sum
  let slope := (n * sumXY - sumX * sumY) / (n * sumX2 - sumX * sumX)
  let intercept := (sumY - slope * sumX) / n
  slope * n + intercept

lemma foldl_projStep (l : List (ℕ × MonthlyCost)) (a b c d : ℚ) :
    l.foldl projStep (a, b, c, d) =
      (a + (l.map (fun p => (p.1 : ℚ))).sum,
       b + (l.map (fun p => p.2.totalCost)).sum,
       c + (l.map (fun p => (p.1 : ℚ) * p.2.totalCost)).sum,
       d + (l.map (fun p => (p.1 : ℚ) * (p.1 : ℚ))).sum) := by
  induction l generalizing a b c d with
  | nil => simp
  | cons p l ih =>
    simp only [List.foldl_cons, List.map_cons, List.sum_cons, projStep, ih]
    refine Prod.ext ?_ (Prod.ext ?_ (Prod.ext ?_ ?_)) <;> simp <;> ring

lemma enum_map_x (ms : List MonthlyCost) :
    ms.enum.map (fun p => ((p.1 : ℕ) : ℚ)) =
      (List.range ms.length).map (fun i : ℕ => (i : ℚ)) := by
  have h1 : (ms.enum.map Prod.fst).map (fun i : ℕ => (i : ℚ))
      = (List.range ms.length).map (fun i : ℕ => (i : ℚ)) := by
    rw [List.enum_map_fst]
  rw [List.map_map] at h1
  exact h1

lemma enum_map_y (ms : List MonthlyCost) :
    ms.enum.map (fun p => (p.2 : MonthlyCost).totalCost) =
      ms.map MonthlyCost.totalCost := by
  have h1 : (ms.enum.map Prod.snd).map MonthlyCost.totalCost
      = ms.map MonthlyCost.totalCost := by
    rw [List.enum_map_snd]
  rw [List.map_map] at h1
  exact h1

lemma enum_map_xy (ms : List MonthlyCost) :
    ms.enum.map (fun p => ((p.1 : ℕ) : ℚ) * (p.2 : MonthlyCost).totalCost) =
      (((List.range ms.length).map (fun i : ℕ => (i : ℚ))).zip
        (ms.map MonthlyCost.totalCost)).map (fun p => p.1 * p.2) := by
  rw [List.zip_map, List.map_map, List.enum_eq_zip_range]
  rfl

lemma enum_map_x2 (ms : List MonthlyCost) :
    ms.enum.map (fun p => ((p.1 : ℕ) : ℚ) * ((p.1 : ℕ) : ℚ)) =
      ((List.range ms.length).map (fun i : ℕ => (i : ℚ))).map (fun x => x * x) := by
  have h1 : (ms.enum.map Prod.fst).map (fun i : ℕ => (i : ℚ) * (i : ℚ))
      = (List.range ms.length).map (fun i : ℕ => (i : ℚ) * (i : ℚ)) := by
    rw [List.enum_map_fst]
  rw [List.map_map] at h1
  rw [List.map_map]
  exact h1

/-- Service.GetTrendAnalysis (shell.go), as a pure function of the
monthly sequence in stored (most-recent-first) retrieval order. -/
def getTrendAnalysis (monthlyCosts : List MonthlyCost) : TrendAnalysis :=
  match monthlyCosts with
  | [] => ⟨0, 0, 0, "no_data", 0, 0⟩
  | m0 :: rest =>
    let currentMonth := m0.totalCost
    let previousMonth := match rest with
      | [] => 0
      | m1 :: _ => m1.totalCost
    let changePercent :=
      if previousMonth > 0 then ((currentMonth - previousMonth) / previousMonth) * 100 else 0
    let trend :=
      if changePercent > 5 then "increasing"
      else if changePercent < -5 then "decreasing"
      else "stable"
    let sum := ((m0 :: rest).map MonthlyCost.totalCost).sum
    let averageMonthly := sum / ((m0 :: rest).length : ℚ)
    let projection := calculateProjection (m0 :: rest)
    ⟨currentMonth, previousMonth, round2 changePercent, trend,
      round2 averageMonthly, round2 projection⟩

/-- Service.GetTrendAnalysis including the error path: GetMonthlyCosts
failure is wrapped, success applies the pure computation. -/
def getTrendAnalysisSvc (res : Except String (List MonthlyCost)) :
    Except String TrendAnalysis :=
  match res with
  | .error e => .error ("failed to get monthly costs: " ++ e)
  | .ok monthlyCosts => .ok (getTrendAnalysis monthlyCosts)

/-- Service.GetLocalForecast (shell.go), as a pure function of the
monthly sequence: fewer than 2 points gives the zero low-confidence
forecast; otherwise the clamped projection with count-based confidence. -/
def getLocalForecast (monthlyCosts : List MonthlyCost) : Forecast :=
  if monthlyCosts.length < 2 then ⟨0, "low"⟩
  else
    let projection := calculateProjection monthlyCosts
    let projection := if projection < 0 then 0 else projection
    let confidence := "low"
    let confidence := if monthlyCosts.length ≥ 4 then "medium" else confidence
    let confidence := if monthlyCosts.length ≥ 6 then "high" else confidence
    ⟨round2 projection, confidence⟩

/-- Service.GetForecast (shell.go): fallback chain over the result of the
local forecast and the result the remote provider call would return. -/
def getForecast (localRes : Except String Forecast)
    (remoteRes : Except String ℚ) : Except String Forecast :=
  match localRes with
  | .ok localForecast =>
    if localForecast.confidence ≠ "low" then .ok localForecast
    else
      match remoteRes with
      | .ok totalCost => .ok ⟨totalCost, "medium"⟩
      | .error _ => .ok localForecast
  | .error _ =>
    match remoteRes with
    | .ok totalCost => .ok ⟨totalCost, "medium"⟩
    | .error e => .error ("both local and API forecast failed: " ++ e)

/-- The alert loop of handleAlertsCheck (api server): collect the names
of the enabled alerts whose threshold the current total meets. -/
def checkAlerts (totalCost : ℚ) (alerts : List Alert) : List String :=
  alerts.foldl
    (fun triggered a =>
      if a.enabled && decide (a.threshold ≤ totalCost) then triggered ++ [a.name]
      else triggered)
    []

/-- cost.CheckServiceUsage (models.go): free-tier classification of a
usage number against an optional service limit. -/
def checkServiceUsage (usage : ℚ) (limit : Option ServiceLimit) : ServiceUsage :=
  match limit with
  | none => ⟨"", 0, 0, "", "unknown", 0⟩
  | some l =>
    let percentUsed := usage / l.limit
    let status :=
      if percentUsed ≥ 1 then "overage"
      else if l.warningThreshold > 0 ∧ percentUsed ≥ l.warningThreshold then "warning"
      else "free"
    ⟨"", usage, l.limit, l.unit, status, percentUsed * 100⟩

/-- The per-row insert loop of DB.SaveCostRecords: rows executed so far
are pending inside the open transaction; a failing row aborts the loop.
`insertFails` abstracts the storage engine's per-row constraint check. -/
def insertLoop (insertFails : CostRecord → Bool) :
    List CostRecord → List CostRecord → Option (List CostRecord)
  | pending, [] => some pending
  | pending, r :: rs =>
    if insertFails r then none else insertLoop insertFails (pending ++ [r]) rs

/-- DB.SaveCostRecords (sqlite.go): run every insert inside one
transaction; commit publishes the pending rows to the table, the
deferred rollback on any row failure leaves the table untouched.
Returns the resulting table and an optional error. -/
def saveCostRecords (insertFails : CostRecord → Bool)
    (table : List CostRecord) (records : List CostRecord) :
    List CostRecord × Option String :=
  match insertLoop insertFails [] records with
  | some pending => (table ++ pending, none)
  | none => (table, some "insert failed")

/-- Byte-wise (memcmp-style) string comparison, the ordering SQLite
applies to TEXT values in `date >= ?` filters and ORDER BY. -/
def listLeN : List ℕ → List ℕ → Bool
  | [], _ => true
  | _ :: _, [] => false
  | x :: xs, y :: ys =>
    if x < y then true else if y < x then false else listLeN xs ys

/-- Less-or-equal on strings under the byte-wise TEXT collation. -/
def strLeBytes (a b : String) : Bool :=
  listLeN (a.data.map Char.toNat) (b.data.map Char.toNat)

/-- strftime of the SQL in GetMonthlyCosts: truncate "YYYY-MM-DD" to its
"YYYY-MM" month bucket. -/
def monthOf (date : String) : String := date.take 7

/-- Sort key order for GetMonthlyCosts: month descending (the SQL
ORDER BY month DESC over (month, currency) group keys). -/
def monthDescLe (a b : String × String) : Prop := strLeBytes b.1 a.1 = true

instance : DecidableRel monthDescLe := fun a b =>
  inferInstanceAs (Decidable (strLeBytes b.1 a.1 = true))

/-- DB.GetMonthlyCosts (sqlite.go): restrict to records at or after the
cutoff date, group by (month, currency), sum each group's cost, order
the buckets by month descending. -/
def getMonthlyCosts (cutoff : String) (store : List CostRecord) : List MonthlyCost :=
  let rows := store.filter (fun r => strLeBytes cutoff r.date)
  let keys := (rows.map (fun r => (monthOf r.date, r.currency))).dedup
  (keys.insertionSort monthDescLe).map (fun k =>
    ⟨k.1,
     ((rows.filter (fun r => monthOf r.date == k.1 && r.currency == k.2)).map
        CostRecord.cost).sum,
     k.2⟩)

/-- cost.CostFilter / storage.CostFilter (models.go, sqlite.go). -/
structure CostFilter where
  startDate : String
  endDate : String
  serviceName : String
  groupBy : String
deriving DecidableEq, Repr

/-- The WHERE clause of GetAggregatedCosts: each date bound applies only
when the corresponding filter field is nonempty. -/
def inDateRange (f : CostFilter) (r : CostRecord) : Bool :=
  (f.startDate == "" || strLeBytes f.startDate r.date) &&
  (f.endDate == "" || strLeBytes r.date f.endDate)

/-- The GROUP BY column of GetAggregatedCosts: resource_group when asked
for "ResourceGroup", service_name otherwise. -/
def dimValue (groupBy : String) (r : CostRecord) : String :=
  if groupBy == "ResourceGroup" then r.resourceGroup else r.serviceName

/-- DB.GetAggregatedCosts (sqlite.go): sum cost per value of the chosen
dimension over the date-filtered records. -/
def getAggregatedCosts (f : CostFilter) (store : List CostRecord) :
    List (String × ℚ) :=
  let rows := store.filter (inDateRange f)
  let keys := (rows.map (dimValue f.groupBy)).dedup
  keys.map (fun k =>
    (k, ((rows.filter (fun r => dimValue f.groupBy r == k)).map CostRecord.cost).sum))

/-- cost.CostSummary (models.go), the fields GetCostSummary fills. -/
structure CostSummary where
  period : String
  totalCost : ℚ
  currency : String
  byService : List (String × ℚ)
  byResourceGroup : List (String × ℚ)
deriving DecidableEq, Repr

/-- Service.GetCostSummary (shell.go): aggregate by service and by
resource group, total the per-service sums, fix the currency label. -/
def getCostSummary (f : CostFilter) (store : List CostRecord) : CostSummary :=
  let byService := getAggregatedCosts ⟨f.startDate, f.endDate, "", "ServiceName"⟩ store
  let byResourceGroup :=
    getAggregatedCosts ⟨f.startDate, f.endDate, "", "ResourceGroup"⟩ store
  let totalCost := (byService.map Prod.snd).sum
  ⟨f.startDate ++ " to " ++ f.endDate, totalCost, "USD", byService, byResourceGroup⟩

/-- Service.GetLocalForecast composed with DB.GetMonthlyCosts: the
forecast the service computes from the store. -/
def getLocalForecastFromStore (cutoff : String) (store : List CostRecord) : Forecast :=
  getLocalForecast (getMonthlyCosts cutoff store)

/-- The spec's month-over-month percent-change formula:
previous > 0 ? (current − previous)/previous × 100 : 0. -/
def specPercentChange (current previous : ℚ) : ℚ :=
  if previous > 0 then ((current - previous) / previous) * 100 else 0

lemma calculateProjection_eq_spec (ms : List MonthlyCost) (h : 2 ≤ ms.length) :
    calculateProjection ms = specOLSProjection (ms.map MonthlyCost.totalCost) := by
  have hlen : ¬ ms.length < 2 := by omega
  simp only [calculateProjection, specOLSProjection, hlen, if_false, List.length_map]
  rw [foldl_projStep]
  simp only [zero_add, enum_map_x, enum_map_y, enum_map_xy, enum_map_x2]

/-- C1: for a monthly sequence of length n ≥ 2 the projection computed by
calculateProjection equals the closed-form OLS result with x = 0..n−1 in
the stored retrieval order and the projection read at index n, and for
fewer than 2 points the projection is 0; determinism for a fixed ordering
holds because calculateProjection is a function of the sequence. -/
theorem c1_calculateProjection_ols (ms : List MonthlyCost) :
    (2 ≤ ms.length →
      calculateProjection ms = specOLSProjection (ms.map MonthlyCost.totalCost)) ∧
    (ms.length < 2 → calculateProjection ms = 0) := by
  constructor
  · exact calculateProjection_eq_spec ms
  · intro h
    simp [calculateProjection, h]

/-- Witness for C1 at concrete inputs of length 2 and length 1. -/
theorem c1_calculateProjection_ols_witness :
    (2 ≤ ([⟨"2025-10", 10, "USD"⟩, ⟨"2025-09", 20, "USD"⟩] : List MonthlyCost).length ∧
      calculateProjection [⟨"2025-10", 10, "USD"⟩, ⟨"2025-09", 20, "USD"⟩]
        = specOLSProjection [10, 20]) ∧
    (([⟨"2025-10", 10, "USD"⟩] : List MonthlyCost).length < 2 ∧
      calculateProjection [⟨"2025-10", 10, "USD"⟩] = 0) := by
  refine ⟨⟨by simp, ?_⟩, ⟨by simp, ?_⟩⟩
  · exact (c1_calculateProjection_ols
      [⟨"2025-10", 10, "USD"⟩, ⟨"2025-09", 20, "USD"⟩]).1 (by simp)
  · exact (c1_calculateProjection_ols [⟨"2025-10", 10, "USD"⟩]).2 (by simp)

/-- C5: the confidence of the local forecast depends on the number of
monthly data points alone: fewer than 4 points gives low, 4 or 5 gives
medium, 6 or more gives high. -/
theorem c5_confidence_policy (ms : List MonthlyCost) :
    (getLocalForecast ms).confidence =
      if ms.length < 4 then "low"
      else if ms.length < 6 then "medium"
      else "high" := by
  by_cases h2 : ms.length < 2
  · rw [if_pos (by omega)]
    simp [getLocalForecast, h2]
  · by_cases h6 : 6 ≤ ms.length
    · rw [if_neg (by omega), if_neg (by omega)]
      simp [getLocalForecast, h2, h6]
    · by_cases h4 : 4 ≤ ms.length
      · rw [if_neg (by omega), if_pos (by omega)]
        simp [getLocalForecast, h2, h4, h6]
      · rw [if_pos (by omega)]
        simp [getLocalForecast, h2, h4, h6]

/-- C4: for a nonempty monthly sequence the trend is increasing iff the
percent change exceeds 5, decreasing iff it is below −5, and stable
otherwise (so exactly +5 or −5 classifies as stable, as the two boundary
instances show); an empty sequence yields trend no_data with every
numeric field 0 and no error. -/
theorem c4_trend_classification (m0 : MonthlyCost) (rest : List MonthlyCost) :
    (((getTrendAnalysis (m0 :: rest)).trend = "increasing" ↔
        specPercentChange m0.totalCost (rest.headD ⟨"", 0, ""⟩).totalCost > 5) ∧
     ((getTrendAnalysis (m0 :: rest)).trend = "decreasing" ↔
        specPercentChange m0.totalCost (rest.headD ⟨"", 0, ""⟩).totalCost < -5) ∧
     ((getTrendAnalysis (m0 :: rest)).trend = "stable" ↔
        (specPercentChange m0.totalCost (rest.headD ⟨"", 0, ""⟩).totalCost ≤ 5 ∧
         -5 ≤ specPercentChange m0.totalCost (rest.headD ⟨"", 0, ""⟩).totalCost)) ∧
     (getTrendAnalysis (m0 :: rest)).changePercent =
        round2 (specPercentChange m0.totalCost (rest.headD ⟨"", 0, ""⟩).totalCost)) ∧
    getTrendAnalysisSvc (Except.ok []) = Except.ok ⟨0, 0, 0, "no_data", 0, 0⟩ ∧
    (getTrendAnalysis [⟨"2025-10", 21, "USD"⟩, ⟨"2025-09", 20, "USD"⟩]).trend = "stable" ∧
    (getTrendAnalysis [⟨"2025-10", 19, "USD"⟩, ⟨"2025-09", 20, "USD"⟩]).trend = "stable" := by
  refine ⟨?_, rfl, ?_, ?_⟩
  · have hprev : (match rest with
        | [] => (0 : ℚ)
        | m1 :: _ => m1.totalCost) = (rest.headD ⟨"", 0, ""⟩).totalCost := by
      cases rest <;> rfl
    set pc := specPercentChange m0.totalCost (rest.headD ⟨"", 0, ""⟩).totalCost with hpc
    have htrend : (getTrendAnalysis (m0 :: rest)).trend =
        (if pc > 5 then "increasing" else if pc < -5 then "decreasing" else "stable") := by
      simp only [getTrendAnalysis, hpc, specPercentChange, hprev]
    have hcp : (getTrendAnalysis (m0 :: rest)).changePercent = round2 pc := by
      simp only [getTrendAnalysis, hpc, specPercentChange, hprev]
    by_cases h5 : pc > 5
    · rw [htrend, if_pos h5]
      refine ⟨⟨fun _ => h5, fun _ => rfl⟩, ?_, ?_, hcp⟩
      · constructor
        · intro h
          exact absurd h (by simp)
        · intro h
          linarith
      · constructor
        · intro h
          exact absurd h (by simp)
        · intro h
          linarith
    · by_cases hm5 : pc < -5
      · rw [htrend, if_neg h5, if_pos hm5]
        refine ⟨?_, ⟨fun _ => hm5, fun _ => rfl⟩, ?_, hcp⟩
        · constructor
          · intro h
            exact absurd h (by simp)
          · intro h
            exact absurd h h5
        · constructor
          · intro h
            exact absurd h (by simp)
          · intro h
            linarith [h.2]
      · rw [htrend, if_neg h5, if_neg hm5]
        refine ⟨?_, ?_, ?_, hcp⟩
        · constructor
          · intro h
            exact absurd h (by simp)
          · intro h
            exact absurd h h5
        · constructor
          · intro h
            exact absurd h (by simp)
          · intro h
            exact absurd h hm5
        · exact ⟨fun _ => ⟨by linarith, by linarith⟩, fun _ => rfl⟩
  · norm_num [getTrendAnalysis, specPercentChange]
  · norm_num [getTrendAnalysis, specPercentChange]

lemma round2_nonneg (q : ℚ) (h : 0 ≤ q) : 0 ≤ round2 q := by
  have h100 : (0 : ℚ) ≤ q * 100 := by linarith
  have hfloor : (0 : ℤ) ≤ ⌊q * 100 + 1/2⌋ := Int.floor_nonneg.mpr (by linarith)
  simp only [round2, goRound, if_pos h100]
  have : (0 : ℚ) ≤ (⌊q * 100 + 1/2⌋ : ℚ) := by exact_mod_cast hfloor
  positivity

/-- C6 counterexample: on the two-month history with totals 10 then 0
(most-recent-first) the raw projection is −10 and GetTrendAnalysis
reports it unclamped, so its Projection field is negative. -/
theorem c6_counterexample :
    (getTrendAnalysis [⟨"2025-10", 10, "USD"⟩, ⟨"2025-09", 0, "USD"⟩]).projection < 0 := by
  norm_num [getTrendAnalysis, calculateProjection, projStep, List.enum, List.enumFrom,
    round2, goRound]

/-- C6 amended: only GetLocalForecast clamps a negative projection; its
reported next-month estimate is nonnegative for every monthly history,
while the Projection field of GetTrendAnalysis is the rounded raw
projection and can be negative. -/
theorem c6_local_forecast_nonneg (ms : List MonthlyCost) :
    0 ≤ (getLocalForecast ms).nextMonth := by
  by_cases h2 : ms.length < 2
  · simp [getLocalForecast, h2]
  · by_cases hneg : calculateProjection ms < 0
    · simp only [getLocalForecast, h2, if_false, if_pos hneg]
      exact round2_nonneg 0 le_rfl
    · simp only [getLocalForecast, h2, if_false, if_neg hneg]
      exact round2_nonneg _ (le_of_not_lt hneg)

/-- C2: GetForecast resolves by the deterministic fallback chain: a
non-low local forecast is returned as is; a low local confidence defers
to a successful remote estimate tagged medium; a failed remote call
falls back to any existing local forecast; and with no local forecast
and a failed remote call an error is returned. -/
theorem c2_forecast_fallback (localForecast : Forecast) (el er : String) (t : ℚ)
    (remoteRes : Except String ℚ) :
    (localForecast.confidence ≠ "low" →
      getForecast (Except.ok localForecast) remoteRes = Except.ok localForecast) ∧
    (localForecast.confidence = "low" →
      getForecast (Except.ok localForecast) (Except.ok t) =
        Except.ok ⟨t, "medium"⟩) ∧
    (getForecast (Except.ok localForecast) (Except.error er) =
      Except.ok localForecast) ∧
    (getForecast (Except.error el) (Except.error er) =
      Except.error ("both local and API forecast failed: " ++ er)) := by
  refine ⟨?_, ?_, ?_, rfl⟩
  · intro h
    simp [getForecast, h]
  · intro h
    simp [getForecast, h]
  · by_cases h : localForecast.confidence = "low"
    · simp [getForecast, h]
    · simp [getForecast, h]

/-- Witness for C2 at concrete local forecasts. -/
theorem c2_forecast_fallback_witness :
    ((⟨100, "high"⟩ : Forecast).confidence ≠ "low" ∧
      getForecast (Except.ok ⟨100, "high"⟩) (Except.error "boom") =
        Except.ok ⟨100, "high"⟩) ∧
    ((⟨0, "low"⟩ : Forecast).confidence = "low" ∧
      getForecast (Except.ok ⟨0, "low"⟩) (Except.ok 42) =
        Except.ok ⟨42, "medium"⟩) := by
  constructor
  · exact ⟨by simp,
      (c2_forecast_fallback ⟨100, "high"⟩ "x" "boom" 0 (Except.error "boom")).1 (by simp)⟩
  · exact ⟨rfl,
      (c2_forecast_fallback ⟨0, "low"⟩ "x" "y" 42 (Except.ok 42)).2.1 rfl⟩

lemma insertLoop_all_ok (insertFails : CostRecord → Bool) :
    ∀ (records pending : List CostRecord), (∀ r ∈ records, insertFails r = false) →
      insertLoop insertFails pending records = some (pending ++ records) := by
  intro records
  induction records with
  | nil =>
    intro pending _
    simp [insertLoop]
  | cons r rs ih =>
    intro pending h
    have hr : insertFails r = false := h r (by simp)
    have hrest : ∀ x ∈ rs, insertFails x = false := fun x hx => h x (by simp [hx])
    simp only [insertLoop, hr, Bool.false_eq_true, if_false, ih (pending ++ [r]) hrest]
    simp

lemma insertLoop_has_fail (insertFails : CostRecord → Bool) :
    ∀ (records pending : List CostRecord), (∃ r ∈ records, insertFails r = true) →
      insertLoop insertFails pending records = none := by
  intro records
  induction records with
  | nil =>
    intro pending h
    simp at h
  | cons r rs ih =>
    intro pending h
    by_cases hr : insertFails r = true
    · simp [insertLoop, hr]
    · obtain ⟨x, hx, hfx⟩ := h
      rcases List.mem_cons.mp hx with hxr | hxs
      · exact absurd (hxr ▸ hfx) hr
      · simp only [insertLoop, hr, if_false]
        exact ih (pending ++ [r]) ⟨x, hxs, hfx⟩

/-- C3: the batch insert runs inside one transaction: when every row
succeeds the whole batch is appended to the table and the transaction
commits, and when any row of the batch fails the table is unchanged —
zero rows persist — and an error is reported. -/
theorem c3_batch_insert_atomic (insertFails : CostRecord → Bool)
    (table records : List CostRecord) :
    ((∀ r ∈ records, insertFails r = false) →
      saveCostRecords insertFails table records = (table ++ records, none)) ∧
    ((∃ r ∈ records, insertFails r = true) →
      (saveCostRecords insertFails table records).1 = table ∧
        (saveCostRecords insertFails table records).2.isSome = true) := by
  constructor
  · intro h
    simp [saveCostRecords, insertLoop_all_ok insertFails records [] h]
  · intro h
    simp [saveCostRecords, insertLoop_has_fail insertFails records [] h]

/-- Witness for C3: a fully valid singleton batch persists whole, and a
two-record batch whose second row violates the nonnegative-cost
constraint leaves the table empty. -/
theorem c3_batch_insert_atomic_witness :
    ((∀ r ∈ ([⟨"s", "rg", "vm", 3, "USD", "2025-10-01"⟩] : List CostRecord),
        decide (r.cost < 0) = false) ∧
      saveCostRecords (fun r => decide (r.cost < 0)) []
          [⟨"s", "rg", "vm", 3, "USD", "2025-10-01"⟩]
        = ([⟨"s", "rg", "vm", 3, "USD", "2025-10-01"⟩], none)) ∧
    ((∃ r ∈ ([⟨"s", "rg", "vm", 3, "USD", "2025-10-01"⟩,
          ⟨"s", "rg", "vm", -1, "USD", "2025-10-02"⟩] : List CostRecord),
        decide (r.cost < 0) = true) ∧
      (saveCostRecords (fun r => decide (r.cost < 0)) []
          [⟨"s", "rg", "vm", 3, "USD", "2025-10-01"⟩,
           ⟨"s", "rg", "vm", -1, "USD", "2025-10-02"⟩]).1 = [] ∧
      (saveCostRecords (fun r => decide (r.cost < 0)) []
          [⟨"s", "rg", "vm", 3, "USD", "2025-10-01"⟩,
           ⟨"s", "rg", "vm", -1, "USD", "2025-10-02"⟩]).2.isSome = true) := by
  constructor
  · refine ⟨by norm_num, ?_⟩
    have h := (c3_batch_insert_atomic (fun r => decide (r.cost < 0)) []
      [⟨"s", "rg", "vm", 3, "USD", "2025-10-01"⟩]).1 (by norm_num)
    simpa using h
  · refine ⟨⟨⟨"s", "rg", "vm", -1, "USD", "2025-10-02"⟩, by norm_num, by norm_num⟩, ?_⟩
    exact (c3_batch_insert_atomic (fun r => decide (r.cost < 0)) []
      [⟨"s", "rg", "vm", 3, "USD", "2025-10-01"⟩,
       ⟨"s", "rg", "vm", -1, "USD", "2025-10-02"⟩]).2
      ⟨⟨"s", "rg", "vm", -1, "USD", "2025-10-02"⟩, by norm_num, by norm_num⟩

lemma checkAlerts_foldl (totalCost : ℚ) (alerts : List Alert) (acc : List String) :
    alerts.foldl
        (fun triggered a =>
          if a.enabled && decide (a.threshold ≤ totalCost) then triggered ++ [a.name]
          else triggered) acc
      = acc ++
          (alerts.filter (fun a => a.enabled && decide (a.threshold ≤ totalCost))).map
            Alert.name := by
  induction alerts generalizing acc with
  | nil => simp
  | cons a as ih =>
    simp only [List.foldl_cons, List.filter_cons]
    by_cases h : (a.enabled && decide (a.threshold ≤ totalCost)) = true
    · rw [h, if_pos rfl, if_pos rfl, List.map_cons, ih (acc ++ [a.name])]
      simp
    · rw [Bool.not_eq_true] at h
      rw [h, if_neg (by simp), if_neg (by simp), ih acc]

/-- C7: the triggered alert names are exactly the names of the enabled
alerts whose threshold the aggregated total meets; disabled alerts are
skipped entirely; in particular with alerts budget-5 (threshold 5) and
budget-20 (threshold 20) and total 7.32 only budget-5 triggers. -/
theorem c7_alert_evaluation (totalCost : ℚ) (alerts : List Alert) :
    (checkAlerts totalCost alerts =
      (alerts.filter (fun a => a.enabled && decide (a.threshold ≤ totalCost))).map
        Alert.name) ∧
    checkAlerts (183/25) [⟨"budget-5", 5, "sub", true⟩, ⟨"budget-20", 20, "sub", true⟩]
      = ["budget-5"] ∧
    checkAlerts 100 [⟨"disabled-alert", 1, "sub", false⟩] = [] := by
  refine ⟨?_, ?_, ?_⟩
  · have h := checkAlerts_foldl totalCost alerts []
    rw [List.nil_append] at h
    exact h
  · norm_num [checkAlerts]
  · norm_num [checkAlerts]

/-- C9: the CostSummary built by GetCostSummary carries the constant
currency label "USD" for every filter and every store state, whatever
currencies the stored records use. -/
theorem c9_summary_currency_usd (f : CostFilter) (store : List CostRecord) :
    (getCostSummary f store).currency = "USD" := rfl

/-- C8: free-tier classification: no limit gives status unknown;
otherwise with percentUsed = usage/limit the status is overage iff
percentUsed ≥ 1 (usage equal to the limit is overage), else warning iff
the warning threshold is positive and percentUsed reaches it (usage
exactly at warningThreshold·limit is warning), else free; the reported
percent is percentUsed × 100. -/
theorem c8_free_tier_classification (usage : ℚ) (l : ServiceLimit) :
    (checkServiceUsage usage none).status = "unknown" ∧
    ((checkServiceUsage usage (some l)).status = "overage" ↔ 1 ≤ usage / l.limit) ∧
    ((checkServiceUsage usage (some l)).status = "warning" ↔
      (usage / l.limit < 1 ∧ 0 < l.warningThreshold ∧
        l.warningThreshold ≤ usage / l.limit)) ∧
    ((checkServiceUsage usage (some l)).status = "free" ↔
      (usage / l.limit < 1 ∧
        ¬(0 < l.warningThreshold ∧ l.warningThreshold ≤ usage / l.limit))) ∧
    (checkServiceUsage usage (some l)).percentUsed = usage / l.limit * 100 ∧
    (checkServiceUsage 750
        (some ⟨"B1s VM hours", 750, "hours", "12 months", 8/10⟩)).status = "overage" ∧
    (checkServiceUsage 600
        (some ⟨"Hot Blob Storage", 750, "GB", "always free", 8/10⟩)).status
      = "warning" := by
  have hstatus : (checkServiceUsage usage (some l)).status =
      (if usage / l.limit ≥ 1 then "overage"
       else if l.warningThreshold > 0 ∧ usage / l.limit ≥ l.warningThreshold then "warning"
       else "free") := rfl
  refine ⟨rfl, ?_, ?_, ?_, rfl, ?_, ?_⟩
  · by_cases h1 : usage / l.limit ≥ 1
    · rw [hstatus, if_pos h1]
      exact ⟨fun _ => h1, fun _ => rfl⟩
    · rw [hstatus, if_neg h1]
      by_cases hw : l.warningThreshold > 0 ∧ usage / l.limit ≥ l.warningThreshold
      · rw [if_pos hw]
        exact ⟨fun h => absurd h (by simp), fun h => absurd h h1⟩
      · rw [if_neg hw]
        exact ⟨fun h => absurd h (by simp), fun h => absurd h h1⟩
  · by_cases h1 : usage / l.limit ≥ 1
    · rw [hstatus, if_pos h1]
      refine ⟨fun h => absurd h (by simp), fun h => absurd h.1 (not_lt.mpr h1)⟩
    · rw [hstatus, if_neg h1]
      by_cases hw : l.warningThreshold > 0 ∧ usage / l.limit ≥ l.warningThreshold
      · rw [if_pos hw]
        exact ⟨fun _ => ⟨not_le.mp h1, hw.1, hw.2⟩, fun _ => rfl⟩
      · rw [if_neg hw]
        exact ⟨fun h => absurd h (by simp), fun h => absurd ⟨h.2.1, h.2.2⟩ hw⟩
  · by_cases h1 : usage / l.limit ≥ 1
    · rw [hstatus, if_pos h1]
      exact ⟨fun h => absurd h (by simp), fun h => absurd h.1 (not_lt.mpr h1)⟩
    · rw [hstatus, if_neg h1]
      by_cases hw : l.warningThreshold > 0 ∧ usage / l.limit ≥ l.warningThreshold
      · rw [if_pos hw]
        exact ⟨fun h => absurd h (by simp), fun h => absurd hw h.2⟩
      · rw [if_neg hw]
        exact ⟨fun _ => ⟨not_le.mp h1, hw⟩, fun _ => rfl⟩
  · norm_num [checkServiceUsage]
  · norm_num [checkServiceUsage]

lemma map_month_currency (t : String × String → ℚ) (ks : List (String × String)) :
    ((ks.map (fun k => (⟨k.1, t k, k.2⟩ : MonthlyCost))).map
      (fun m => (m.month, m.currency))) = ks := by
  rw [List.map_map]
  induction ks with
  | nil => rfl
  | cons k ks ih => simpa using ih

/-- C10: GetMonthlyCosts yields one bucket per (month, currency) pair of
the in-window records — its (month, currency) projections are exactly the
pairs occurring among those records, without repetition — so a month with
two currencies appears twice, and the length of this per-pair sequence is
the point count the forecast confidence consumes: four records over two
months in two currencies already give confidence medium. -/
theorem c10_monthly_per_month_currency (cutoff : String) (store : List CostRecord) :
    ((((getMonthlyCosts cutoff store).map (fun m => (m.month, m.currency))).Nodup) ∧
      (∀ p : String × String,
        p ∈ (getMonthlyCosts cutoff store).map (fun m => (m.month, m.currency)) ↔
          p ∈ (store.filter (fun r => strLeBytes cutoff r.date)).map
                (fun r => (monthOf r.date, r.currency)))) ∧
    getMonthlyCosts "" [⟨"s", "rg", "vm", 3, "USD", "2025-10-01"⟩,
        ⟨"s", "rg", "vm", 4, "EUR", "2025-10-02"⟩] =
      [⟨"2025-10", 3, "USD"⟩, ⟨"2025-10", 4, "EUR"⟩] ∧
    (getLocalForecastFromStore "" [⟨"s", "rg", "vm", 3, "USD", "2025-10-01"⟩,
        ⟨"s", "rg", "vm", 4, "EUR", "2025-10-02"⟩,
        ⟨"s", "rg", "vm", 5, "USD", "2025-09-01"⟩,
        ⟨"s", "rg", "vm", 6, "EUR", "2025-09-02"⟩]).confidence = "medium" := by
  refine ⟨?_, ?_, ?_⟩
  · have hmap : (getMonthlyCosts cutoff store).map (fun m => (m.month, m.currency))
        = (((store.filter (fun r => strLeBytes cutoff r.date)).map
              (fun r => (monthOf r.date, r.currency))).dedup).insertionSort monthDescLe :=
      map_month_currency _ _
    have hperm := List.perm_insertionSort monthDescLe
      (((store.filter (fun r => strLeBytes cutoff r.date)).map
          (fun r => (monthOf r.date, r.currency))).dedup)
    constructor
    · rw [hmap]
      exact hperm.nodup_iff.mpr (List.nodup_dedup _)
    · intro p
      rw [hmap, hperm.mem_iff, List.mem_dedup]
  · norm_num [getMonthlyCosts, monthOf, strLeBytes, listLeN, List.insertionSort,
      List.orderedInsert, monthDescLe, List.dedup, List.filter_cons, List.filter_nil,
      show "2025-10-01".take 7 = "2025-10" from rfl,
      show "2025-10-02".take 7 = "2025-10" from rfl,
      show ("EUR" = "USD") = False by simp, show ("USD" = "EUR") = False by simp]
  · norm_num [getLocalForecastFromStore, getLocalForecast, getMonthlyCosts, monthOf,
      strLeBytes, listLeN, List.insertionSort, List.orderedInsert, monthDescLe,
      List.dedup, List.filter_cons, List.filter_nil,
      show "2025-10-01".take 7 = "2025-10" from rfl,
      show "2025-10-02".take 7 = "2025-10" from rfl,
      show "2025-09-01".take 7 = "2025-09" from rfl,
      show "2025-09-02".take 7 = "2025-09" from rfl,
      show ("EUR" = "USD") = False by simp, show ("USD" = "EUR") = False by simp,
      show ("2025-09" = "2025-10") = False by simp,
      show ("2025-10" = "2025-09") = False by simp]

end AzGuard
